import Mathlib

/-!
Verification of the Leitner spaced-repetition core of the English-bot
repository.  The definitions below are a shallow embedding of the scheduling
engine in `src/leitner.py`, the session assembly in
`src/services/learning_service.py`, and the persist-then-advance flow of
`src/handlers/learning.py`.

Modelling conventions:
* Dates are modelled as `Int` (days); `date.today() + timedelta(days=k)`
  becomes `today + k`.
* The progress store (table `user_word_progress`) is a `List UserWordProgress`
  in the row-enumeration order the database yields.
* Python's float computations `int(days * 1.5)` and `max(1, int(days * 0.7))`
  are embedded as the exact integer formulas `days * 3 / 2` and
  `max 1 (days * 7 / 10)` (natural-number division).  On every value the
  interval table can produce (1, 2, 4, 7, 14, 30, 60) the float computation
  of CPython agrees with these exact formulas, so the embedding is faithful
  on all reachable inputs.
-/

namespace EnglishBot

/-- Embedding of the `UserWordProgress` model (`src/models.py`): one review
record per learner and word, holding the Leitner box, the last difficulty
rating, the three counters and the next review date. -/
structure UserWordProgress where
  user_id : Nat
  word_id : Nat
  leitner_box : Nat
  difficulty : Option String
  times_reviewed : Nat
  times_correct : Nat
  times_incorrect : Nat
  next_review_date : Int
deriving Repr, DecidableEq

/-- Embedding of the `Word` model (`src/models.py`), restricted to the fields
the scheduler reads: identifier and active flag. -/
structure Word where
  id : Nat
  is_active : Bool
deriving Repr, DecidableEq

/-- Embedding of `LEITNER_BOXES` from `src/config.py`; the out-of-range
default value 1 mirrors `LEITNER_BOXES.get(new_box, 1)` in the scheduler. -/
def LEITNER_BOXES (box : Nat) : Nat :=
  if box = 1 then 1
  else if box = 2 then 2
  else if box = 3 then 4
  else if box = 4 then 7
  else if box = 5 then 14
  else if box = 6 then 30
  else if box = 7 then 60
  else 1

/-- Modelled from the spec: `DifficultyLevel.EASY`.  The scheduler imports
`DifficultyLevel` from the models module, but no such class exists anywhere
under the source tree; the spec fixes difficulty values as the strings
easy / normal / hard, matching the `Difficulty` string enum that does exist
in `src/constants/buttons.py`. -/
def DifficultyLevel.EASY : String := "easy"

/-- Modelled from the spec: `DifficultyLevel.NORMAL`; see `DifficultyLevel.EASY`. -/
def DifficultyLevel.NORMAL : String := "normal"

/-- Modelled from the spec: `DifficultyLevel.HARD`; see `DifficultyLevel.EASY`. -/
def DifficultyLevel.HARD : String := "hard"

/-- Python truthiness of the optional difficulty string (`if difficulty:`):
`None` and the empty string are falsy. -/
def strTruthy : Option String → Bool
  | none => false
  | some s => s != ""

/-- Interval adjustment of the correct branch of `update_word_progress`
(`src/leitner.py`, lines 150-160): base interval from the box table, times
1.5 for an easy rating below box 7, times 0.7 (at least 1 day) for a hard
rating. -/
def adjusted_interval (difficulty : Option String) (new_box : Nat) : Nat :=
  let base := LEITNER_BOXES new_box
  if difficulty = some DifficultyLevel.EASY ∧ new_box < 7 then base * 3 / 2
  else if difficulty = some DifficultyLevel.HARD then max 1 (base * 7 / 10)
  else base

/-- The record mutation performed by `update_word_progress`
(`src/leitner.py`, lines 133-166) on the fetched-or-created record:
bump the counters, store the difficulty when truthy, then either promote
the box and reschedule (correct) or reset to box 1 due tomorrow (incorrect). -/
def update_progress_record (today : Int) (is_correct : Bool)
    (difficulty : Option String) (p : UserWordProgress) : UserWordProgress :=
  let p1 := { p with times_reviewed := p.times_reviewed + 1 }
  let p2 := if is_correct then { p1 with times_correct := p1.times_correct + 1 }
            else { p1 with times_incorrect := p1.times_incorrect + 1 }
  let p3 := if strTruthy difficulty then { p2 with difficulty := difficulty } else p2
  if is_correct then
    let new_box := min (p3.leitner_box + 1) 7
    { p3 with
        leitner_box := new_box,
        next_review_date := today + (adjusted_interval difficulty new_box : Int) }
  else
    { p3 with leitner_box := 1, next_review_date := today + 1 }

/-- The fresh record created by `update_word_progress` when the learner has
no record for the word (`src/leitner.py`, lines 120-131): box 1, due
tomorrow, all counters zero. -/
def initial_progress (today : Int) (user_id word_id : Nat) : UserWordProgress :=
  { user_id := user_id
    word_id := word_id
    leitner_box := 1
    difficulty := none
    times_reviewed := 0
    times_correct := 0
    times_incorrect := 0
    next_review_date := today + 1 }

/-- Embedding of the get-or-create lookup of `update_word_progress`:
the store row for this learner and word, if any. -/
def find_progress (store : List UserWordProgress) (user_id word_id : Nat) :
    Option UserWordProgress :=
  store.find? (fun p => p.user_id == user_id && p.word_id == word_id)

/-- Embedding of `update_word_progress` (`src/leitner.py`): fetch or create
the record, apply the Leitner mutation, and persist it; returns the updated
record together with the updated store. -/
def update_word_progress (today : Int) (store : List UserWordProgress)
    (user_id word_id : Nat) (is_correct : Bool) (difficulty : Option String) :
    UserWordProgress × List UserWordProgress :=
  match find_progress store user_id word_id with
  | some p =>
      let p2 := update_progress_record today is_correct difficulty p
      (p2, store.map (fun q =>
        if q.user_id == user_id && q.word_id == word_id then p2 else q))
  | none =>
      let p2 := update_progress_record today is_correct difficulty
        (initial_progress today user_id word_id)
      (p2, store ++ [p2])

/-- The ordering key of the review query in `get_words_for_review`
(`src/leitner.py`, line 40): ascending Leitner box. -/
def box_le (a b : UserWordProgress) : Prop :=
  a.leitner_box ≤ b.leitner_box

instance : DecidableRel box_le :=
  fun a b => inferInstanceAs (Decidable (a.leitner_box ≤ b.leitner_box))

instance : IsTotal UserWordProgress box_le :=
  ⟨fun a b => Nat.le_total a.leitner_box b.leitner_box⟩

instance : IsTrans UserWordProgress box_le :=
  ⟨fun _ _ _ hab hbc => Nat.le_trans hab hbc⟩

/-- The WHERE clause of the review query (`src/leitner.py`, lines 35-39):
rows of this learner whose next review date is on or before today. -/
def due_filter (user_id : Nat) (today : Int) (p : UserWordProgress) : Bool :=
  p.user_id == user_id && decide (p.next_review_date ≤ today)

/-- Embedding of `get_words_for_review` (`src/leitner.py`): the learner's
due rows, ordered by box ascending, truncated to `limit`.  SQL pins the
order only by box, so ties keep the store's row order (a stable sort on the
enumeration the database yields). -/
def get_words_for_review (store : List UserWordProgress) (user_id : Nat)
    (limit : Nat) (today : Int) : List UserWordProgress :=
  (List.insertionSort box_le (store.filter (due_filter user_id today))).take limit

/-- Membership in a query of `get_new_words` terms: whether the learner
already has a progress row for the word (the LEFT JOIN of
`src/leitner.py`, lines 66-78). -/
def has_progress (store : List UserWordProgress) (user_id : Nat) (w : Word) : Bool :=
  store.any (fun p => p.user_id == user_id && p.word_id == w.id)

/-- Embedding of `get_new_words` (`src/leitner.py`): active words with no
progress row for this learner, up to `limit`, in catalog order. -/
def get_new_words (words : List Word) (store : List UserWordProgress)
    (user_id : Nat) (limit : Nat) : List Word :=
  (words.filter (fun w => w.is_active && !(has_progress store user_id w))).take limit

/-- Embedding of `create_study_session`
(`src/services/learning_service.py`, lines 33-42): the due segment up to
the daily limit, then new words only for the remaining slots; returns the
two segments as word-identifier lists. -/
def create_study_session (today : Int) (words : List Word)
    (store : List UserWordProgress) (user_id : Nat) (daily_limit : Nat) :
    List Nat × List Nat :=
  let review_progress := get_words_for_review store user_id daily_limit today
  let review_word_ids := review_progress.map (fun p => p.word_id)
  let remaining_slots := daily_limit - review_word_ids.length
  let new_words :=
    if 0 < remaining_slots then get_new_words words store user_id remaining_slots
    else []
  (review_word_ids, new_words.map (fun w => w.id))

/-- Scenario C store: learner 1 has exactly three records due on day 0. -/
def scenario_store : List UserWordProgress :=
  [⟨1, 1, 2, none, 3, 2, 1, 0⟩, ⟨1, 2, 3, none, 4, 3, 1, -1⟩, ⟨1, 3, 5, none, 6, 5, 1, 0⟩]

/-- Scenario C catalog: the three seen words plus ten active unseen words. -/
def scenario_words : List Word :=
  [⟨1, true⟩, ⟨2, true⟩, ⟨3, true⟩, ⟨101, true⟩, ⟨102, true⟩, ⟨103, true⟩,
    ⟨104, true⟩, ⟨105, true⟩, ⟨106, true⟩, ⟨107, true⟩, ⟨108, true⟩,
    ⟨109, true⟩, ⟨110, true⟩]

/-- Equal-box record used to exhibit the unpinned tie order of the review
query. -/
def tie_record_a : UserWordProgress := ⟨1, 101, 3, none, 0, 0, 0, 0⟩

/-- Second equal-box record for the tie-order example. -/
def tie_record_b : UserWordProgress := ⟨1, 102, 3, none, 0, 0, 0, 0⟩

/-- Record of a different learner, irrelevant to learner 1's review query. -/
def other_user_record : UserWordProgress := ⟨2, 101, 1, none, 0, 0, 0, 0⟩

/-! ### Helper lemmas about the record mutation -/

lemma LEITNER_BOXES_pos (b : Nat) : 1 ≤ LEITNER_BOXES b := by
  unfold LEITNER_BOXES
  split_ifs <;> norm_num

lemma adjusted_interval_normal (b : Nat) :
    adjusted_interval (some DifficultyLevel.NORMAL) b = LEITNER_BOXES b := by
  have h1 : ¬((some DifficultyLevel.NORMAL = some DifficultyLevel.EASY) ∧ b < 7) := by
    rintro ⟨h, -⟩
    exact absurd h (by decide)
  have h2 : ¬(some DifficultyLevel.NORMAL = some DifficultyLevel.HARD) := by decide
  simp only [adjusted_interval, if_neg h1, if_neg h2]

lemma update_leitner_box (today : Int) (c : Bool) (d : Option String)
    (p : UserWordProgress) :
    (update_progress_record today c d p).leitner_box =
      if c then min (p.leitner_box + 1) 7 else 1 := by
  cases c <;>
    simp [update_progress_record, apply_ite UserWordProgress.leitner_box]

lemma update_next_review_correct (today : Int) (d : Option String)
    (p : UserWordProgress) :
    (update_progress_record today true d p).next_review_date =
      today + (adjusted_interval d (min (p.leitner_box + 1) 7) : Int) := by
  simp [update_progress_record, apply_ite UserWordProgress.leitner_box]

lemma update_next_review_incorrect (today : Int) (d : Option String)
    (p : UserWordProgress) :
    (update_progress_record today false d p).next_review_date = today + 1 := by
  simp [update_progress_record]

lemma update_times_reviewed (today : Int) (c : Bool) (d : Option String)
    (p : UserWordProgress) :
    (update_progress_record today c d p).times_reviewed = p.times_reviewed + 1 := by
  cases c <;>
    simp [update_progress_record, apply_ite UserWordProgress.times_reviewed]

lemma update_times_correct (today : Int) (c : Bool) (d : Option String)
    (p : UserWordProgress) :
    (update_progress_record today c d p).times_correct =
      p.times_correct + if c then 1 else 0 := by
  cases c <;>
    simp [update_progress_record, apply_ite UserWordProgress.times_correct]

lemma update_times_incorrect (today : Int) (c : Bool) (d : Option String)
    (p : UserWordProgress) :
    (update_progress_record today c d p).times_incorrect =
      p.times_incorrect + if c then 0 else 1 := by
  cases c <;>
    simp [update_progress_record, apply_ite UserWordProgress.times_incorrect]

lemma adjusted_interval_mono (b : Nat) :
    adjusted_interval (some DifficultyLevel.HARD) b ≤
        adjusted_interval (some DifficultyLevel.NORMAL) b ∧
      adjusted_interval (some DifficultyLevel.NORMAL) b ≤
        adjusted_interval (some DifficultyLevel.EASY) b := by
  rw [adjusted_interval_normal]
  constructor
  · have h1 : ¬((some DifficultyLevel.HARD = some DifficultyLevel.EASY) ∧ b < 7) := by
      rintro ⟨h, -⟩
      exact absurd h (by decide)
    simp only [adjusted_interval, if_neg h1, if_pos rfl]
    have hp := LEITNER_BOXES_pos b
    have hd : LEITNER_BOXES b * 7 / 10 ≤ LEITNER_BOXES b :=
      calc LEITNER_BOXES b * 7 / 10 ≤ LEITNER_BOXES b * 10 / 10 :=
            Nat.div_le_div_right (by omega)
        _ = LEITNER_BOXES b := Nat.mul_div_cancel _ (by norm_num)
    exact max_le hp hd
  · simp only [adjusted_interval]
    split_ifs with hA hB
    · have h2 : LEITNER_BOXES b * 2 ≤ LEITNER_BOXES b * 3 := by omega
      exact (Nat.le_div_iff_mul_le (show (0:Nat) < 2 by norm_num)).mpr h2
    · exact absurd hB (by decide)
    · exact le_rfl

/-! ### Claim theorems about the update algorithm -/

/-- C1: for a record in box b ∈ [1,6], a correct answer rated "normal"
promotes the record to box b+1 with due date today + BOX_INTERVAL[b+1]
from the fixed schedule; for a record in box 7, a correct answer keeps
box 7 and sets the due date to today + 60. -/
theorem correct_normal_promotes (today : Int) (p : UserWordProgress) :
    (1 ≤ p.leitner_box → p.leitner_box ≤ 6 →
      (update_progress_record today true (some DifficultyLevel.NORMAL) p).leitner_box
          = p.leitner_box + 1 ∧
        (update_progress_record today true (some DifficultyLevel.NORMAL) p).next_review_date
          = today + (LEITNER_BOXES (p.leitner_box + 1) : Int)) ∧
    (p.leitner_box = 7 →
      (update_progress_record today true (some DifficultyLevel.NORMAL) p).leitner_box = 7 ∧
        (update_progress_record today true (some DifficultyLevel.NORMAL) p).next_review_date
          = today + 60) := by
  constructor
  · intro h1 h6
    have hmin : min (p.leitner_box + 1) 7 = p.leitner_box + 1 := by omega
    constructor
    · rw [update_leitner_box]
      simp [hmin]
    · rw [update_next_review_correct, hmin, adjusted_interval_normal]
  · intro h7
    have hmin : min (p.leitner_box + 1) 7 = 7 := by omega
    constructor
    · rw [update_leitner_box]
      simp [hmin]
    · rw [update_next_review_correct, hmin, adjusted_interval_normal]
      norm_num [LEITNER_BOXES]

/-- Witness for C1: a box-3 record answered correct with "normal" moves to
box 4 and is due 7 days out (end-to-end scenario A of the spec). -/
theorem correct_normal_promotes_witness :
    (update_progress_record 0 true (some DifficultyLevel.NORMAL)
        ⟨1, 5, 3, none, 4, 2, 2, 0⟩).leitner_box = 4 ∧
      (update_progress_record 0 true (some DifficultyLevel.NORMAL)
        ⟨1, 5, 3, none, 4, 2, 2, 0⟩).next_review_date = 7 := by
  have h := (correct_normal_promotes 0 ⟨1, 5, 3, none, 4, 2, 2, 0⟩).1
    (by decide) (by decide)
  exact ⟨h.1.trans (by norm_num), h.2.trans (by norm_num [LEITNER_BOXES])⟩

/-- C2: an incorrect answer, for any prior store content and any difficulty
argument, leaves the learner's record in box 1, due tomorrow, with
timesIncorrect and timesReviewed each one larger than on the prior record
(or on the freshly created record when none existed). -/
theorem incorrect_resets_to_box_one (today : Int) (store : List UserWordProgress)
    (u w : Nat) (d : Option String) :
    (update_word_progress today store u w false d).1.leitner_box = 1 ∧
    (update_word_progress today store u w false d).1.next_review_date = today + 1 ∧
    (update_word_progress today store u w false d).1.times_incorrect
        = ((find_progress store u w).getD (initial_progress today u w)).times_incorrect + 1 ∧
    (update_word_progress today store u w false d).1.times_reviewed
        = ((find_progress store u w).getD (initial_progress today u w)).times_reviewed + 1 := by
  cases hfp : find_progress store u w <;>
    simp [update_word_progress, hfp, update_leitner_box, update_next_review_incorrect,
      update_times_incorrect, update_times_reviewed]

/-- C3: starting from one and the same record, the due date produced by a
correct answer is monotone in the difficulty rating: hard ≤ normal ≤ easy. -/
theorem difficulty_interval_monotone (today : Int) (p : UserWordProgress) :
    (update_progress_record today true (some DifficultyLevel.HARD) p).next_review_date
        ≤ (update_progress_record today true (some DifficultyLevel.NORMAL) p).next_review_date ∧
      (update_progress_record today true (some DifficultyLevel.NORMAL) p).next_review_date
        ≤ (update_progress_record today true (some DifficultyLevel.EASY) p).next_review_date := by
  rw [update_next_review_correct, update_next_review_correct, update_next_review_correct]
  have h := adjusted_interval_mono (min (p.leitner_box + 1) 7)
  exact ⟨add_le_add_left (by exact_mod_cast h.1) today,
    add_le_add_left (by exact_mod_cast h.2) today⟩

/-- C4: box stays in [1,7] across all core operations: fresh records start
in box 1, any update keeps the box inside [1,7], an incorrect answer resets
it to exactly 1, and a correct answer raises it by at most 1. -/
theorem box_stays_in_range (today t0 : Int) (c : Bool) (d : Option String)
    (p : UserWordProgress) (u w : Nat) :
    (initial_progress t0 u w).leitner_box = 1 ∧
    (1 ≤ p.leitner_box → p.leitner_box ≤ 7 →
      1 ≤ (update_progress_record today c d p).leitner_box ∧
        (update_progress_record today c d p).leitner_box ≤ 7) ∧
    (c = false → (update_progress_record today c d p).leitner_box = 1) ∧
    (c = true → (update_progress_record today c d p).leitner_box ≤ p.leitner_box + 1) := by
  refine ⟨rfl, fun h1 h7 => ?_, fun hc => ?_, fun hc => ?_⟩
  · rw [update_leitner_box]
    cases c <;> simp
  · subst hc
    rw [update_leitner_box]
    simp
  · subst hc
    rw [update_leitner_box]
    simp

/-- Witness for C4: updating a box-7 record with a correct answer keeps the
box inside [1,7]. -/
theorem box_stays_in_range_witness :
    1 ≤ (update_progress_record 0 true none ⟨1, 2, 7, none, 0, 0, 0, 0⟩).leitner_box ∧
      (update_progress_record 0 true none ⟨1, 2, 7, none, 0, 0, 0, 0⟩).leitner_box ≤ 7 :=
  (box_stays_in_range 0 0 true none ⟨1, 2, 7, none, 0, 0, 0, 0⟩ 1 2).2.1
    (by decide) (by decide)

/-- C10: timesReviewed = timesCorrect + timesIncorrect holds on fresh
records and is preserved by every update of the store: fetched-or-created
records gain one timesReviewed together with exactly one of the other two. -/
theorem counters_stay_consistent (today t0 : Int) (store : List UserWordProgress)
    (u w u0 w0 : Nat) (c : Bool) (d : Option String) :
    ((initial_progress t0 u0 w0).times_reviewed =
        (initial_progress t0 u0 w0).times_correct +
          (initial_progress t0 u0 w0).times_incorrect) ∧
    ((∀ q ∈ store, q.times_reviewed = q.times_correct + q.times_incorrect) →
      ∀ q ∈ (update_word_progress today store u w c d).2,
        q.times_reviewed = q.times_correct + q.times_incorrect) := by
  have key : ∀ r : UserWordProgress,
      r.times_reviewed = r.times_correct + r.times_incorrect →
      (update_progress_record today c d r).times_reviewed =
        (update_progress_record today c d r).times_correct +
          (update_progress_record today c d r).times_incorrect := by
    intro r hr
    rw [update_times_reviewed, update_times_correct, update_times_incorrect, hr]
    cases c <;> simp <;> omega
  refine ⟨rfl, fun hinv q hq => ?_⟩
  cases hfp : find_progress store u w with
  | some p =>
      have hp : p ∈ store := List.mem_of_find?_eq_some hfp
      simp only [update_word_progress, hfp] at hq
      rcases List.mem_map.mp hq with ⟨q0, hq0, rfl⟩
      by_cases hcond : (q0.user_id == u && q0.word_id == w) = true
      · rw [if_pos hcond]
        exact key p (hinv p hp)
      · rw [if_neg hcond]
        exact hinv q0 hq0
  | none =>
      simp only [update_word_progress, hfp] at hq
      rcases List.mem_append.mp hq with h | h
      · exact hinv q h
      · rcases List.mem_singleton.mp h with rfl
        exact key _ rfl

/-- Witness for C10: the record produced by an update on the empty store
satisfies timesReviewed = timesCorrect + timesIncorrect. -/
theorem counters_stay_consistent_witness :
    (update_word_progress 0 [] 1 2 true none).1.times_reviewed =
      (update_word_progress 0 [] 1 2 true none).1.times_correct +
        (update_word_progress 0 [] 1 2 true none).1.times_incorrect := by
  have h := (counters_stay_consistent 0 0 [] 1 2 1 2 true none).2 (by simp)
  exact h ((update_word_progress 0 [] 1 2 true none).1) (by decide)

lemma mem_get_words_for_review {store : List UserWordProgress} {u limit : Nat}
    {today : Int} {p : UserWordProgress}
    (hp : p ∈ get_words_for_review store u limit today) :
    p ∈ store ∧ p.user_id = u ∧ p.next_review_date ≤ today := by
  unfold get_words_for_review at hp
  have h1 : p ∈ List.insertionSort box_le (store.filter (due_filter u today)) :=
    List.mem_of_mem_take hp
  have h2 : p ∈ store.filter (due_filter u today) :=
    (List.perm_insertionSort box_le _).mem_iff.mp h1
  have h3 := List.mem_filter.mp h2
  have h4 := h3.2
  simp only [due_filter, Bool.and_eq_true, beq_iff_eq, decide_eq_true_eq] at h4
  exact ⟨h3.1, h4.1, h4.2⟩

/-- C5: the review selection returns at most `limit` records, each returned
record belongs to the learner and is due (next review date ≤ today), and
the returned list is ordered by box ascending. -/
theorem get_words_for_review_spec (store : List UserWordProgress)
    (u limit : Nat) (today : Int) :
    (get_words_for_review store u limit today).length ≤ limit ∧
    (∀ p ∈ get_words_for_review store u limit today,
      p.user_id = u ∧ p.next_review_date ≤ today) ∧
    (get_words_for_review store u limit today).Sorted box_le := by
  refine ⟨?_, fun p hp => (mem_get_words_for_review hp).2, ?_⟩
  · exact List.length_take_le _ _
  · exact List.Pairwise.sublist (List.take_sublist _ _)
      (List.sorted_insertionSort box_le _)

/-- Witness for C5: a concrete due record of learner 1 returned by the
query indeed belongs to learner 1 and is due. -/
theorem get_words_for_review_spec_witness :
    (⟨1, 5, 2, none, 0, 0, 0, 0⟩ : UserWordProgress).user_id = 1 ∧
      (⟨1, 5, 2, none, 0, 0, 0, 0⟩ : UserWordProgress).next_review_date ≤ 0 :=
  (get_words_for_review_spec [⟨1, 5, 2, none, 0, 0, 0, 0⟩] 1 10 0).2.1
    ⟨1, 5, 2, none, 0, 0, 0, 0⟩ (by decide)

/-- C8 counterexample: the review query pins the order only by box, so two
stores holding the same set of records (here: two permutations of two
equal-box records of the same learner) yield different result lists on the
same day with the same limit, refuting determinism over the mere record
set. -/
theorem selectDue_set_determinism_counterexample :
    ([tie_record_a, tie_record_b] : List UserWordProgress).Perm
        [tie_record_b, tie_record_a] ∧
      get_words_for_review [tie_record_a, tie_record_b] 1 10 0 ≠
        get_words_for_review [tie_record_b, tie_record_a] 1 10 0 :=
  ⟨List.Perm.swap tie_record_b tie_record_a [], by decide⟩

/-- C8 amended: the review selection is deterministic given the store's row
enumeration: two calls for the same learner, limit and day whose stores
enumerate the learner's due records in the same order return the same list;
rows of other learners or non-due rows never influence the result.  Within
equal boxes the order follows the store's enumeration, which the query does
not pin. -/
theorem selectDue_deterministic_in_store_order (u limit : Nat) (today : Int)
    (store₁ store₂ : List UserWordProgress)
    (h : store₁.filter (due_filter u today) = store₂.filter (due_filter u today)) :
    get_words_for_review store₁ u limit today =
      get_words_for_review store₂ u limit today := by
  unfold get_words_for_review
  rw [h]

/-- Witness for the amended C8: dropping another learner's record from the
store does not change learner 1's selection. -/
theorem selectDue_deterministic_in_store_order_witness :
    get_words_for_review [tie_record_a, other_user_record] 1 10 0 =
      get_words_for_review [tie_record_a] 1 10 0 :=
  selectDue_deterministic_in_store_order 1 10 0
    [tie_record_a, other_user_record] [tie_record_a] (by decide)

lemma mem_get_new_words {words : List Word} {store : List UserWordProgress}
    {u limit : Nat} {w : Word} (hw : w ∈ get_new_words words store u limit) :
    w ∈ words ∧ w.is_active = true ∧
      ∀ p ∈ store, ¬(p.user_id = u ∧ p.word_id = w.id) := by
  unfold get_new_words at hw
  have h1 := List.mem_of_mem_take hw
  have h2 := List.mem_filter.mp h1
  have h3 := h2.2
  simp only [Bool.and_eq_true, Bool.not_eq_true'] at h3
  refine ⟨h2.1, h3.1, fun p hp hcontra => ?_⟩
  have hany : has_progress store u w = true := by
    simp only [has_progress, List.any_eq_true]
    exact ⟨p, hp, by simp [hcontra.1, hcontra.2]⟩
  rw [h3.2] at hany
  exact Bool.false_ne_true hany

/-- C6: a session takes the due segment first (at most the daily limit),
fills only the remaining capacity with new words (exactly the minimum of
the remaining slots and the eligible catalog), so the queue never exceeds
the limit; the two segments are disjoint, since a word is new only when the
learner has no progress row for it; and in scenario C (limit 10, 3 due
records, ample unseen catalog) the queue is exactly 3 review + 7 new. -/
theorem create_study_session_spec (today : Int) (words : List Word)
    (store : List UserWordProgress) (u L : Nat) :
    (create_study_session today words store u L).1.length +
        (create_study_session today words store u L).2.length ≤ L ∧
    (create_study_session today words store u L).2.length =
        min (L - (create_study_session today words store u L).1.length)
          ((words.filter (fun w => w.is_active && !(has_progress store u w))).length) ∧
    (∀ i ∈ (create_study_session today words store u L).2,
        i ∉ (create_study_session today words store u L).1) ∧
    ((create_study_session 0 scenario_words scenario_store 1 10).1.length = 3 ∧
      (create_study_session 0 scenario_words scenario_store 1 10).2.length = 7) := by
  have hrev : (create_study_session today words store u L).1 =
      (get_words_for_review store u L today).map (fun p => p.word_id) := rfl
  have hrevlen : (create_study_session today words store u L).1.length ≤ L := by
    rw [hrev, List.length_map]
    exact List.length_take_le _ _
  have hnew : (create_study_session today words store u L).2 =
      (if 0 < L - (create_study_session today words store u L).1.length
        then get_new_words words store u
          (L - (create_study_session today words store u L).1.length)
        else []).map (fun w => w.id) := rfl
  have hnewlen : (create_study_session today words store u L).2.length =
      min (L - (create_study_session today words store u L).1.length)
        ((words.filter (fun w => w.is_active && !(has_progress store u w))).length) := by
    rw [hnew]
    split
    · rw [List.length_map, get_new_words, List.length_take]
    · rename_i hz
      simp only [List.map_nil, List.length_nil]
      omega
  refine ⟨by omega, hnewlen, fun i hi hmem => ?_, by decide⟩
  rw [hnew] at hi
  rcases List.mem_map.mp hi with ⟨w, hw_if, rfl⟩
  by_cases hz : 0 < L - (create_study_session today words store u L).1.length
  · rw [if_pos hz] at hw_if
    have hnp := (mem_get_new_words hw_if).2.2
    rw [hrev] at hmem
    rcases List.mem_map.mp hmem with ⟨p, hp, hpid⟩
    have hps := mem_get_words_for_review hp
    exact hnp p hps.1 ⟨hps.2.1, hpid⟩
  · rw [if_neg hz] at hw_if
    exact absurd hw_if (List.not_mem_nil w)

/-- Witness for C6: in scenario C, word 101 sits in the new segment and is
therefore absent from the review segment. -/
theorem create_study_session_spec_witness :
    (101 : Nat) ∉ (create_study_session 0 scenario_words scenario_store 1 10).1 := by
  have h := create_study_session_spec 0 scenario_words scenario_store 1 10
  exact h.2.2.1 101 (by decide)

/-! ### Statistics aggregation (`get_user_statistics`) -/

/-- Result shape of `get_user_statistics` (`src/leitner.py`, lines 212-221).
Python's `round(x, 2)` over floats is idealised as exact rational
round-half-even, so `accuracy` is a rational. -/
structure UserStatistics where
  total_words : Nat
  mastered_words : Nat
  box_distribution : List (Nat × Nat)
  total_reviews : Nat
  total_correct : Nat
  total_incorrect : Nat
  accuracy : Rat
  due_today : Nat
deriving Repr, DecidableEq

/-- The dictionary `box_counts = \x7bi: 0 for i in range(1, 8)\x7d` of
`get_user_statistics`, as an association list over the keys 1..7. -/
def init_box_counts : List (Nat × Nat) :=
  [(1, 0), (2, 0), (3, 0), (4, 0), (5, 0), (6, 0), (7, 0)]

/-- One loop step of the box count: `box_counts[p.leitner_box] += 1`,
guarded by `if p.leitner_box in box_counts`, so keys outside 1..7 are
ignored. -/
def incr_box (counts : List (Nat × Nat)) (b : Nat) : List (Nat × Nat) :=
  counts.map (fun kv => if kv.1 = b then (kv.1, kv.2 + 1) else kv)

/-- Dictionary read with default 0 (`box_counts.get(b, 0)`). -/
def box_counts_get (counts : List (Nat × Nat)) (b : Nat) : Nat :=
  match counts.find? (fun kv => kv.1 == b) with
  | some kv => kv.2
  | none => 0

/-- Round-half-even to an integer, the idealisation of Python's banker
rounding on exact rationals. -/
def round_half_even (q : Rat) : Int :=
  if q - q.floor < 1 / 2 then q.floor
  else if (1 : Rat) / 2 < q - q.floor then q.floor + 1
  else if q.floor % 2 = 0 then q.floor
  else q.floor + 1

/-- Python's `round(x, 2)` idealised over exact rationals. -/
def round2 (q : Rat) : Rat :=
  (round_half_even (q * 100) : Rat) / 100

/-- Embedding of `get_user_statistics` (`src/leitner.py`, lines 180-221):
a pure aggregation over the learner's progress rows producing totals, the
box distribution, mastery count, rounded accuracy and the due-today count. -/
def get_user_statistics (today : Int) (store : List UserWordProgress)
    (user_id : Nat) : UserStatistics :=
  let all_progress := store.filter (fun p => p.user_id == user_id)
  let total_words := all_progress.length
  let box_counts :=
    all_progress.foldl (fun acc p => incr_box acc p.leitner_box) init_box_counts
  let mastered := box_counts_get box_counts 7
  let total_reviews : Nat := (all_progress.map (fun p => p.times_reviewed)).sum
  let total_correct : Nat := (all_progress.map (fun p => p.times_correct)).sum
  let total_incorrect : Nat := (all_progress.map (fun p => p.times_incorrect)).sum
  let accuracy : Rat :=
    if 0 < total_reviews then (total_correct : Rat) / (total_reviews : Rat) * 100
    else 0
  let due_today := all_progress.countP (fun p => decide (p.next_review_date ≤ today))
  { total_words := total_words
    mastered_words := mastered
    box_distribution := box_counts
    total_reviews := total_reviews
    total_correct := total_correct
    total_incorrect := total_incorrect
    accuracy := round2 accuracy
    due_today := due_today }

/-- Store used to instantiate the statistics theorem: learner 1 owns three
records (boxes 3, 3, 7), learner 2 owns one. -/
def demo_store : List UserWordProgress :=
  [⟨1, 1, 3, none, 2, 1, 1, 0⟩, ⟨1, 2, 3, none, 5, 4, 1, 5⟩,
    ⟨2, 3, 3, none, 1, 0, 1, 0⟩, ⟨1, 4, 7, none, 9, 9, 0, 60⟩]

/-! ### Handler flow for a difficulty rating -/

/-- Session statistics row (`StudySession` in `src/models.py`) as mutated by
`handle_difficulty`. -/
structure StudySessionRow where
  words_reviewed : Nat
  words_correct : Nat
  words_incorrect : Nat
  new_words : Nat
deriving Repr, DecidableEq

/-- State touched by `handle_difficulty` (`src/handlers/learning.py`): the
persistent progress store, the session statistics row, and the per-chat
cursor `WORD_INDEX`. -/
structure HandlerState where
  store : List UserWordProgress
  study_session : StudySessionRow
  word_index : Nat
deriving Repr, DecidableEq

/-- Transactional wrapper of `update_word_progress` (`src/leitner.py`,
lines 169-177): the commit outcome is an oracle parameter; on failure the
transaction is rolled back, leaving the stored rows unchanged, and the
exception is re-raised to the caller. -/
def update_word_progress_tx (persist_ok : Bool) (today : Int)
    (store : List UserWordProgress) (user_id word_id : Nat)
    (is_correct : Bool) (difficulty : Option String) :
    Except Unit (UserWordProgress × List UserWordProgress) :=
  if persist_ok then
    Except.ok (update_word_progress today store user_id word_id is_correct difficulty)
  else Except.error ()

/-- Embedding of `handle_difficulty` (`src/handlers/learning.py`, lines
294-332): persist the Leitner update; only on success bump the session
counters and advance the cursor — the except-branch leaves every piece of
state as it was. -/
def handle_difficulty (persist_ok : Bool) (today : Int) (st : HandlerState)
    (user_id word_id : Nat) (is_correct : Bool) (difficulty : Option String)
    (is_new_word : Bool) : HandlerState :=
  match update_word_progress_tx persist_ok today st.store user_id word_id
      is_correct difficulty with
  | Except.error _ => st
  | Except.ok r =>
      let s0 := st.study_session
      let s1 := { s0 with words_reviewed := s0.words_reviewed + 1 }
      let s2 :=
        if is_correct then { s1 with words_correct := s1.words_correct + 1 }
        else { s1 with words_incorrect := s1.words_incorrect + 1 }
      let s3 := if is_new_word then { s2 with new_words := s2.new_words + 1 } else s2
      { store := r.2, study_session := s3, word_index := st.word_index + 1 }

/-! ### Lemmas about the box-count fold -/

lemma find_incr_box (counts : List (Nat × Nat)) (c b : Nat) :
    (incr_box counts c).find? (fun kv => kv.1 == b) =
      (counts.find? (fun kv => kv.1 == b)).map
        (fun kv => if kv.1 = c then (kv.1, kv.2 + 1) else kv) := by
  induction counts with
  | nil => rfl
  | cons kv rest ih =>
      simp only [incr_box, List.map_cons] at ih ⊢
      rw [List.find?_cons, List.find?_cons]
      have hfst : ((if kv.1 = c then (kv.1, kv.2 + 1) else kv).1 == b) = (kv.1 == b) := by
        split <;> rfl
      rw [hfst]
      cases kv.1 == b with
      | true => rfl
      | false => simpa using ih

lemma box_counts_get_incr_self (counts : List (Nat × Nat)) (b : Nat)
    (h : (counts.find? (fun kv => kv.1 == b)).isSome = true) :
    box_counts_get (incr_box counts b) b = box_counts_get counts b + 1 := by
  unfold box_counts_get
  rw [find_incr_box]
  cases hf : counts.find? (fun kv => kv.1 == b) with
  | none => rw [hf] at h; simp at h
  | some kv =>
      have hb : kv.1 = b := by simpa using List.find?_some hf
      simp [hb]

lemma box_counts_get_incr_other (counts : List (Nat × Nat)) (c b : Nat)
    (h : c ≠ b) :
    box_counts_get (incr_box counts c) b = box_counts_get counts b := by
  unfold box_counts_get
  rw [find_incr_box]
  cases hf : counts.find? (fun kv => kv.1 == b) with
  | none => simp
  | some kv =>
      have hb : kv.1 = b := by simpa using List.find?_some hf
      have : ¬kv.1 = c := by rw [hb]; exact fun hh => h hh.symm
      simp [this]

lemma isSome_find_incr_box (counts : List (Nat × Nat)) (c b : Nat) :
    ((incr_box counts c).find? (fun kv => kv.1 == b)).isSome =
      ((counts.find? (fun kv => kv.1 == b)).isSome) := by
  rw [find_incr_box]
  cases counts.find? (fun kv => kv.1 == b) <;> rfl

lemma foldl_incr_box_get (l : List UserWordProgress) :
    ∀ (counts : List (Nat × Nat)) (b : Nat),
      (counts.find? (fun kv => kv.1 == b)).isSome = true →
      box_counts_get (l.foldl (fun acc p => incr_box acc p.leitner_box) counts) b =
        box_counts_get counts b + (l.filter (fun p => p.leitner_box == b)).length := by
  induction l with
  | nil => intro counts b _; simp
  | cons p rest ih =>
      intro counts b h
      simp only [List.foldl_cons]
      rw [ih (incr_box counts p.leitner_box) b
        (by rw [isSome_find_incr_box]; exact h)]
      by_cases hpb : p.leitner_box = b
      · rw [hpb, box_counts_get_incr_self counts b h]
        simp only [List.filter_cons, hpb, beq_self_eq_true, if_true, List.length_cons]
        omega
      · rw [box_counts_get_incr_other counts p.leitner_box b hpb]
        simp only [List.filter_cons]
        rw [if_neg (by simpa using hpb)]

lemma init_box_counts_find_isSome (b : Nat) (h1 : 1 ≤ b) (h7 : b ≤ 7) :
    ((init_box_counts.find? (fun kv => kv.1 == b)).isSome = true) := by
  interval_cases b <;> rfl

lemma init_box_counts_get (b : Nat) : box_counts_get init_box_counts b = 0 := by
  unfold box_counts_get
  cases hf : init_box_counts.find? (fun kv => kv.1 == b) with
  | none => rfl
  | some kv =>
      have hm : kv ∈ init_box_counts := List.mem_of_find?_eq_some hf
      have hall : ∀ x ∈ init_box_counts, x.2 = 0 := by decide
      exact hall kv hm

lemma round_half_even_zero : round_half_even 0 = 0 := by
  norm_num [round_half_even, show (0 : Rat).floor = 0 from rfl]

lemma round2_zero : round2 0 = 0 := by
  rw [round2, show (0 : Rat) * 100 = 0 by norm_num, round_half_even_zero]
  norm_num

/-- C9: the statistics aggregation returns, for the learner's records:
their number, the box-7 count as mastered, a box distribution giving each
box 1..7 its record count, the three counter totals, the accuracy
totalCorrect/totalReviews*100 rounded to two decimals (0 when there are no
reviews), and the count of records due today; it is a pure function of the
store, and on zero records every field is zero. -/
theorem get_user_statistics_spec (today : Int) (store : List UserWordProgress)
    (u : Nat) :
    (get_user_statistics today store u).total_words =
        (store.filter (fun p => p.user_id == u)).length ∧
    (get_user_statistics today store u).mastered_words =
        ((store.filter (fun p => p.user_id == u)).filter
          (fun p => p.leitner_box == 7)).length ∧
    (∀ b, 1 ≤ b → b ≤ 7 →
      box_counts_get (get_user_statistics today store u).box_distribution b =
        ((store.filter (fun p => p.user_id == u)).filter
          (fun p => p.leitner_box == b)).length) ∧
    (get_user_statistics today store u).total_reviews =
        ((store.filter (fun p => p.user_id == u)).map
          (fun p => p.times_reviewed)).sum ∧
    (get_user_statistics today store u).total_correct =
        ((store.filter (fun p => p.user_id == u)).map
          (fun p => p.times_correct)).sum ∧
    (get_user_statistics today store u).total_incorrect =
        ((store.filter (fun p => p.user_id == u)).map
          (fun p => p.times_incorrect)).sum ∧
    (get_user_statistics today store u).accuracy =
        (if 0 < ((store.filter (fun p => p.user_id == u)).map
              (fun p => p.times_reviewed)).sum then
          round2 (((((store.filter (fun p => p.user_id == u)).map
                (fun p => p.times_correct)).sum : Nat) : Rat) /
              ((((store.filter (fun p => p.user_id == u)).map
                (fun p => p.times_reviewed)).sum : Nat) : Rat) * 100)
        else 0) ∧
    (get_user_statistics today store u).due_today =
        ((store.filter (fun p => p.user_id == u)).filter
          (fun p => decide (p.next_review_date ≤ today))).length ∧
    get_user_statistics today [] u = ⟨0, 0, init_box_counts, 0, 0, 0, 0, 0⟩ := by
  have hdist : ∀ b, 1 ≤ b → b ≤ 7 →
      box_counts_get (get_user_statistics today store u).box_distribution b =
        ((store.filter (fun p => p.user_id == u)).filter
          (fun p => p.leitner_box == b)).length := by
    intro b h1 h7
    show box_counts_get
        ((store.filter (fun p => p.user_id == u)).foldl
          (fun acc p => incr_box acc p.leitner_box) init_box_counts) b = _
    rw [foldl_incr_box_get _ init_box_counts b (init_box_counts_find_isSome b h1 h7),
      init_box_counts_get, Nat.zero_add]
  refine ⟨rfl, hdist 7 (by norm_num) (by norm_num), hdist, rfl, rfl, rfl, ?_, ?_, ?_⟩
  · show round2 (if 0 < ((store.filter (fun p => p.user_id == u)).map
          (fun p => p.times_reviewed)).sum then _ else 0) = _
    split
    · rfl
    · exact round2_zero
  · exact List.countP_eq_length_filter _ _
  · show get_user_statistics today [] u = _
    unfold get_user_statistics
    simp only [List.filter_nil, List.length_nil, List.foldl_nil, List.map_nil,
      List.sum_nil, List.countP_nil, lt_self_iff_false, if_false]
    rw [round2_zero]
    rfl

/-- Witness for C9: for a concrete store, box 3 of learner 1's distribution
counts exactly the learner's box-3 records. -/
theorem get_user_statistics_spec_witness :
    box_counts_get (get_user_statistics 0 demo_store 1).box_distribution 3 =
      ((demo_store.filter (fun p => p.user_id == 1)).filter
        (fun p => p.leitner_box == 3)).length := by
  have h := get_user_statistics_spec 0 demo_store 1
  exact h.2.2.1 3 (by norm_num) (by norm_num)

/-- C7: with a failing persist the transactional update reports the error
to its caller, the stored rows are unchanged, and the handler leaves the
whole session state — cursor included — exactly as it was; the cursor
advances (by one) only on a successful persist. -/
theorem failed_persist_changes_nothing (today : Int) (st : HandlerState)
    (u w : Nat) (c : Bool) (d : Option String) (n : Bool) :
    update_word_progress_tx false today st.store u w c d = Except.error () ∧
    handle_difficulty false today st u w c d n = st ∧
    (handle_difficulty true today st u w c d n).word_index = st.word_index + 1 := by
  exact ⟨rfl, rfl, rfl⟩

end EnglishBot
